import Mathlib

set_option maxRecDepth 1000000
set_option maxHeartbeats 1000000

/-!
Shallow embedding of the sine-PWM firmware
(src/EEFORPROJECTIDE/EE105WORKINGWellHigh/EE105WORKINGWellHigh.ino).

Modelling conventions:
- C `float` arithmetic is idealised as exact rational arithmetic (`ℚ`); the
  float constant `PI_F` is idealised as `Real.pi` and `sinf` as `Real.sin`,
  so the sine-table entries live in `ℝ`.
- The `sscanf`/`strtof` numeric syntax is modelled for the decimal forms
  (sign, digits, decimal point, optional exponent); hexadecimal floats and
  the infinity/nan spellings are out of scope.
- Serial output is modelled as the list of printed lines; the PWM and timer
  peripherals are modelled by the returned duty value and the
  `tickerAttached` / `currentIntervalUs` fields.
-/

namespace SinePwm

/-- `#define MAX_TABLE_SIZE 200` (line 28). -/
def MAX_TABLE_SIZE : ℤ := 200

/-- `int TABLE_SIZE = 100` (line 29); never mutated after boot (100 ≤ 200). -/
def TABLE_SIZE : ℤ := 100

/-- `const float VCC = 3.3f` (line 50), the supply rail. -/
def VCC : ℚ := 33 / 10

/-- The firmware's mutable globals (lines 39-47), plus the sine lookup
table `float sineTable[MAX_TABLE_SIZE]` (line 36): modelled as a function
from index to value; only indices below `MAX_TABLE_SIZE` are meaningful. -/
structure OscState where
  phase : ℚ
  currentTableSize : ℤ
  tickerAttached : Bool
  amplitude_v : ℚ
  amplitude_scale : ℚ
  frequency : ℚ
  currentIntervalUs : ℕ
  sineTable : ℕ → ℝ

/-- `buildSineTable` (lines 89-95): no-op for `tableSize ≤ 0`, clamps to
`MAX_TABLE_SIZE`, then fills entries `0 ≤ i < tableSize` with
`(sinf(2πi/tableSize) + 1) * 0.5`; entries beyond keep their old value. -/
noncomputable def buildSineTable (table : ℕ → ℝ) (tableSize : ℤ) : ℕ → ℝ :=
  if tableSize ≤ 0 then table
  else
    let ts := if tableSize > MAX_TABLE_SIZE then MAX_TABLE_SIZE else tableSize
    fun i => if (i : ℤ) < ts then (Real.sin (2 * Real.pi * (i : ℝ) / ((ts : ℤ) : ℝ)) + 1) * 0.5 else table i

/-- `onSampleTick` line 61: `pos = p * tableSize`. -/
def tickPos (s : OscState) : ℚ := s.phase * (s.currentTableSize : ℚ)

/-- `onSampleTick` lines 62-64: `idx0 = (int)floorf(pos)`, wrapped by C `%`
(truncated remainder) if it reached `tableSize`. -/
def tickIdx0 (s : OscState) : ℤ :=
  let i := Int.floor (tickPos s)
  if i ≥ s.currentTableSize then Int.tmod i s.currentTableSize else i

/-- `onSampleTick` lines 65-66: `idx1 = idx0 + 1`, wrapped by subtraction. -/
def tickIdx1 (s : OscState) : ℤ :=
  let i := tickIdx0 s + 1
  if i ≥ s.currentTableSize then i - s.currentTableSize else i

/-- `onSampleTick` line 67: `frac = pos - (float)idx0` (after the wrap). -/
def tickFrac (s : OscState) : ℚ := tickPos s - (tickIdx0 s : ℚ)

/-- `onSampleTick` lines 70-72: linear interpolation between the two table
reads (a negative index would be C undefined behaviour; `Int.toNat` maps it
to entry 0 in the model). -/
noncomputable def tickSample (s : OscState) : ℝ :=
  let s0 := s.sineTable (tickIdx0 s).toNat
  let s1 := s.sineTable (tickIdx1 s).toNat
  s0 + (s1 - s0) * ((tickFrac s : ℚ) : ℝ)

/-- `onSampleTick` lines 75-77: `duty = a_scale * sample`, then the two
explicit clamps into `[0, 1]`. -/
noncomputable def tickDuty (s : OscState) : ℝ :=
  let duty := ((s.amplitude_scale : ℚ) : ℝ) * tickSample s
  let duty2 := if duty < 0 then 0 else duty
  if duty2 > 1 then 1 else duty2

/-- `onSampleTick` lines 82-85: advance phase by `1/tableSize`, wrap at 1. -/
def tickNextPhase (s : OscState) : ℚ :=
  let p := s.phase + 1 / (s.currentTableSize : ℚ)
  if p ≥ 1 then p - 1 else p

/-- `onSampleTick` (lines 53-86). `none` models the early `return` for
`tableSize ≤ 0` (no PWM write, no state change); otherwise the duty written
to the PWM peripheral is paired with the updated state. -/
noncomputable def onSampleTick (s : OscState) : Option (ℝ × OscState) :=
  if s.currentTableSize ≤ 0 then none
  else some (tickDuty s, { s with phase := tickNextPhase s })

/-! Text parsing: `sscanf(line, "%f %f", ...)` and the keyword fallback
(lines 194-213). -/

/-- C `isspace` characters (space, tab, newline, vertical tab, form feed,
carriage return), as skipped by `%f`. -/
def isSpaceCh (c : Char) : Bool :=
  c = ' ' || c = '\t' || c = '\n' || c.toNat = 11 || c.toNat = 12 || c = '\r'

/-- Whitespace skipping performed by each `%f` conversion. -/
def skipWs (cs : List Char) : List Char := cs.dropWhile isSpaceCh

/-- Decimal digit run to a natural number. -/
def digitsToNat (ds : List Char) : ℕ :=
  ds.foldl (fun acc c => 10 * acc + (c.toNat - 48)) 0

/-- Optional sign at the head of a float literal. -/
def parseSignCh : List Char → Bool × List Char
  | '-' :: rest => (true, rest)
  | '+' :: rest => (false, rest)
  | cs => (false, cs)

/-- Optional exponent part `e[±]digits` of a float literal; if the digits
are missing the `e` is not consumed (strtof backtracks). Returns
(exponent sign, exponent, remaining input). -/
def parseExpPart (cs : List Char) : Bool × ℕ × List Char :=
  match cs with
  | c :: rest =>
    if c = 'e' || c = 'E' then
      let (eneg, r1) := parseSignCh rest
      let eds := r1.takeWhile Char.isDigit
      if eds.isEmpty then (false, 0, cs)
      else (eneg, digitsToNat eds, r1.dropWhile Char.isDigit)
    else (false, 0, cs)
  | [] => (false, 0, cs)

/-- One `%f` conversion (decimal strtof subset): optional sign, digits with
optional decimal point (at least one digit overall), optional exponent.
Returns the parsed value and the unconsumed input, or `none` on a matching
failure. -/
def parseFloatTok (cs : List Char) : Option (ℚ × List Char) :=
  let (neg, cs1) := parseSignCh cs
  let ds := cs1.takeWhile Char.isDigit
  let cs2 := cs1.dropWhile Char.isDigit
  let (fs, cs3) :=
    match cs2 with
    | '.' :: r => (r.takeWhile Char.isDigit, r.dropWhile Char.isDigit)
    | _ => (([] : List Char), cs2)
  if ds.isEmpty && fs.isEmpty then none
  else
    let mant : ℚ := (digitsToNat ds : ℚ) + (digitsToNat fs : ℚ) / 10 ^ fs.length
    let (eneg, e, cs4) := parseExpPart cs3
    let v := if eneg then mant / 10 ^ e else mant * 10 ^ e
    some (if neg then -v else v, cs4)

/-- `sscanf(line, "%f %f", &freq, &amp)` (line 199): returns the conversion
count together with the `freq`/`amp` variables, which keep their initial
`-1.0f` when their conversion did not happen. -/
def scan2f (cs : List Char) : ℕ × ℚ × ℚ :=
  match parseFloatTok (skipWs cs) with
  | none => (0, -1, -1)
  | some (v1, r1) =>
    match parseFloatTok (skipWs r1) with
    | none => (1, v1, -1)
    | some (v2, _) => (2, v1, v2)

/-- Is `needle` a prefix of `hay`? (used to model `strstr`). -/
def matchesAt : List Char → List Char → Bool
  | [], _ => true
  | _ :: _, [] => false
  | a :: as, b :: bs => a = b && matchesAt as bs

/-- `strstr`: the suffix of `hay` starting at the first occurrence of
`needle`, if any. -/
def findSub (needle : List Char) : List Char → Option (List Char)
  | [] => if needle.isEmpty then some [] else none
  | c :: rest =>
    if matchesAt needle (c :: rest) then some (c :: rest)
    else findSub needle rest

/-- Characters at which the scanset `%*[^0-9-]` stops (frequency case). -/
def isDigitOrDash (c : Char) : Bool := c.isDigit || c = '-'

/-- Characters at which the scanset `%*[^0-9-.]` stops (amplitude case). -/
def isDigitDashDot (c : Char) : Bool := c.isDigit || c = '-' || c = '.'

/-- The keyword fallback (lines 203-212): `strstr` for the keyword, then
`sscanf(p, "%*[^...]%f", &tmp)`: skip a nonempty run of characters not in
the scanset, then one `%f` conversion; the value is taken only when that
conversion succeeds. -/
def scanAfterKeyword (stopAt : Char → Bool) (kw : List Char) (cs : List Char) : Option ℚ :=
  match findSub kw cs with
  | none => none
  | some suff =>
    let skipped := suff.takeWhile (fun c => !(stopAt c))
    if skipped.isEmpty then none
    else
      match parseFloatTok (skipWs (suff.dropWhile (fun c => !(stopAt c)))) with
      | some (v, _) => some v
      | none => none

/-- The full value-recovery of `processSerialLine` (lines 195-213): the
two-float scan first; if fewer than two conversions succeeded, the keyword
fallback overrides whichever of `freq`/`amp` it finds. -/
def recoverPair (cs : List Char) : ℚ × ℚ :=
  let r := scan2f cs
  if r.1 < 2 then
    (match scanAfterKeyword isDigitOrDash (("frequency").data) cs with
     | some v => v
     | none => r.2.1,
     match scanAfterKeyword isDigitDashDot (("amplitude").data) cs with
     | some v => v
     | none => r.2.2)
  else (r.2.1, r.2.2)

/-- The adaptive table-size band ladder (lines 220-224; the identical
ladder appears in `setup`, lines 179-183). -/
def tableSizeFor (freq : ℚ) : ℤ :=
  if freq ≤ 150 then 200
  else if freq ≤ 300 then 100
  else if freq ≤ 600 then 50
  else if freq ≤ 1200 then 30
  else 20

/-- `applyAmplitude` (lines 138-145): clamp to `[0, VCC]`, derive the scale
`amplitude_v / VCC`, and clamp the scale into `[0, 1]`. -/
def applyAmplitude (s : OscState) (amp : ℚ) : OscState :=
  let a1 := if amp < 0 then 0 else amp
  let a2 := if a1 > VCC then VCC else a1
  let sc1 := a2 / VCC
  let sc2 := if sc1 > 1 then 1 else sc1
  let sc3 := if sc2 < 0 then 0 else sc2
  { s with amplitude_v := a2, amplitude_scale := sc3 }

/-- Argument clamping of `updateForFrequencyAndTable` (lines 113-114):
non-positive sizes fall back to `TABLE_SIZE`, then cap at
`MAX_TABLE_SIZE`. -/
def clampTableSizeArg (n : ℤ) : ℤ :=
  let n1 := if n ≤ 0 then TABLE_SIZE else n
  if n1 > MAX_TABLE_SIZE then MAX_TABLE_SIZE else n1

/-- Interval computation of `updateForFrequencyAndTable` (lines 128-132):
`interval_f = 1e6 / (freq * size)` with a divide-by-zero guard, floored at
6 µs, then stored as `(unsigned int)(interval_f + 0.5f)`. -/
def intervalUsFor (freq : ℚ) (n : ℤ) : ℕ :=
  let denom := freq * (n : ℚ)
  let denom2 := if denom ≤ 0 then 1 else denom
  let i1 := 1000000 / denom2
  let i2 := if i1 < 6 then 6 else i1
  (Int.floor (i2 + 1 / 2)).toNat

/-- `updateForFrequencyAndTable` (lines 109-136): reject `freq ≤ 0`,
clamp the size, detach the ticker, rebuild the table, store the new size
and interval, re-attach; `phase` is intentionally untouched. -/
noncomputable def updateForFrequencyAndTable (s : OscState) (freq : ℚ) (newTableSize : ℤ) : OscState :=
  if freq ≤ 0 then s
  else
    let n := clampTableSizeArg newTableSize
    { s with frequency := freq, currentTableSize := n,
             sineTable := buildSineTable s.sineTable n,
             currentIntervalUs := intervalUsFor freq n,
             tickerAttached := true }

/-- Arduino `Serial.print(float, 3)` padding of the fractional digits. -/
def pad3 (n : ℕ) : String :=
  if n < 10 then "00" ++ toString n
  else if n < 100 then "0" ++ toString n
  else toString n

/-- Arduino `Serial.print(float, 3)`: round to 3 decimal places and print
with exactly three fractional digits. -/
def fmt3 (q : ℚ) : String :=
  let m := (Int.floor (abs q * 1000 + 1 / 2)).toNat
  let sign := if q < 0 then "-" else ""
  sign ++ toString (m / 1000) ++ "." ++ pad3 (m % 1000)

/-- The `NACK` detail line (line 247). -/
def parseErrorMsg : String :=
  "PARSE_ERROR - expected format: \"<frequency_hz> <amplitude_v>\" e.g. \"500 3.3\""

/-- The accepted-command path of `processSerialLine` (lines 216-244):
band-ladder table size, cap at `MAX_TABLE_SIZE`, clamp the amplitude to
`VCC`, apply amplitude then frequency/table, and print `ACK` plus the
detail line (reading the globals back after the update). -/
noncomputable def acceptBranch (s : OscState) (freq amp : ℚ) : OscState × List String :=
  let n0 := tableSizeFor freq
  let n1 := if n0 > MAX_TABLE_SIZE then MAX_TABLE_SIZE else n0
  let amp2 := if amp > VCC then VCC else amp
  let s1 := applyAmplitude s amp2
  let s2 := updateForFrequencyAndTable s1 freq n1
  (s2, ["ACK", "APPLIED freq=" ++ fmt3 freq ++ " Hz amp=" ++ fmt3 amp2 ++
        " V tableSize=" ++ toString s2.currentTableSize ++
        " interval_us=" ++ toString s2.currentIntervalUs])

/-- `processSerialLine` (lines 194-250): recover `(freq, amp)`, accept when
`freq > 0 && amp >= 0`, else print `NACK`/`PARSE_ERROR` and change
nothing. -/
noncomputable def processSerialLine (s : OscState) (line : String) : OscState × List String :=
  let fa := recoverPair line.data
  if 0 < fa.1 ∧ 0 ≤ fa.2 then acceptBranch s fa.1 fa.2
  else (s, ["NACK", parseErrorMsg])

/-- The C global initialisers (lines 29, 39-47; the table array is
zero-initialised). -/
def initState : OscState :=
  { phase := 0, currentTableSize := 100, tickerAttached := false,
    amplitude_v := 33 / 10, amplitude_scale := 1, frequency := 1 / 2,
    currentIntervalUs := 0, sineTable := fun _ => 0 }

/-- `setup` (lines 147-191), omitting the serial/PWM peripheral bring-up:
clamp `TABLE_SIZE`, build the default table, zero the phase, apply the
default amplitude, pick the band-ladder size for the default frequency and
run `updateForFrequencyAndTable`; prints `ARDUINO_READY`. -/
noncomputable def setup (s : OscState) : OscState × List String :=
  let t0 := if TABLE_SIZE > MAX_TABLE_SIZE then MAX_TABLE_SIZE else TABLE_SIZE
  let s1 := { s with currentTableSize := t0, tickerAttached := false }
  let s2 := { s1 with sineTable := buildSineTable s1.sineTable s1.currentTableSize }
  let s3 := { s2 with phase := 0 }
  let s4 := applyAmplitude s3 s3.amplitude_v
  let dts := tableSizeFor s4.frequency
  let dts2 := if dts > MAX_TABLE_SIZE then MAX_TABLE_SIZE else dts
  let s5 := updateForFrequencyAndTable s4 s4.frequency dts2
  (s5, ["ARDUINO_READY"])

/-- The firmware state right after `setup` has run on the boot state. -/
noncomputable def setupState : OscState := (setup initState).1

/-- One iteration of the byte-assembly in `loop` (lines 256-270): `\r` is
dropped, `\n` or a full buffer (199 chars) terminates the line, which is
processed only when nonempty; otherwise the byte is appended. Returns the
new buffer and the completed line, if any. -/
def lineStep (buf : List Char) (c : Char) : List Char × Option (List Char) :=
  if c = '\r' then (buf, none)
  else if c = '\n' || 199 ≤ buf.length then
    (if 0 < buf.length then (([] : List Char), some buf) else (([] : List Char), none))
  else (buf ++ [c], none)

/-- Feeding a byte sequence through `loop`: threads the oscillator state
through `processSerialLine` for each completed line; returns the final
state, all printed lines, and the residual buffer. -/
noncomputable def runChars : OscState → List Char → List Char → OscState × List String × List Char
  | s, buf, [] => (s, [], buf)
  | s, buf, c :: rest =>
    match lineStep buf c with
    | (buf2, none) => runChars s buf2 rest
    | (buf2, some line) =>
      let r := processSerialLine s (String.mk line)
      let r2 := runChars r.1 buf2 rest
      (r2.1, r.2 ++ r2.2.1, r2.2.2)

/-! Spec-side definitions for claim C9 (modelled from the claim's words,
not from the code): the accept condition as the spec states it. -/

/-- Whitespace tokenisation helper (accumulator holds the current token
reversed). -/
def tokensWsAux : List Char → List Char → List (List Char)
  | cur, [] => if cur.isEmpty then [] else [cur.reverse]
  | cur, c :: rest =>
    if isSpaceCh c then
      if cur.isEmpty then tokensWsAux [] rest
      else cur.reverse :: tokensWsAux [] rest
    else tokensWsAux (c :: cur) rest

/-- The whitespace-separated tokens of a line. -/
def tokensWs (cs : List Char) : List (List Char) := tokensWsAux [] cs

/-- A token that is entirely one numeric literal. -/
def isNumericTok (t : List Char) : Bool :=
  match parseFloatTok t with
  | some (_, rest) => rest.isEmpty
  | none => false

/-- The numeric value of a token (0 when not numeric). -/
def tokValue (t : List Char) : ℚ :=
  match parseFloatTok t with
  | some (v, _) => v
  | none => 0

/-- Modelled from the spec: case (2) of the claimed accept condition, the
free-text scan finding both the word "frequency" and the word "amplitude"
each followed by a numeric value. -/
def specKeywordRecover (cs : List Char) : Option (ℚ × ℚ) :=
  match scanAfterKeyword isDigitOrDash (("frequency").data) cs,
        scanAfterKeyword isDigitDashDot (("amplitude").data) cs with
  | some f, some a => some (f, a)
  | _, _ => none

/-- Modelled from the spec: the claimed recovery — either exactly two
whitespace-separated numeric tokens read as frequency then amplitude, or
the free-text keyword scan. -/
def specRecover (cs : List Char) : Option (ℚ × ℚ) :=
  match tokensWs cs with
  | [t1, t2] =>
    if isNumericTok t1 && isNumericTok t2 then some (tokValue t1, tokValue t2)
    else specKeywordRecover cs
  | _ => specKeywordRecover cs

/-- Modelled from the spec: the claimed accept condition of C9 — a pair was
recovered by one of the two claimed strategies and satisfies
`frequency > 0` and `amplitude ≥ 0`. -/
def specAccepts (cs : List Char) : Bool :=
  match specRecover cs with
  | some fa => decide (0 < fa.1) && decide (0 ≤ fa.2)
  | none => false

/-- A concrete oscillator state with table size 50 and phase 1/4, used to
instantiate the tick-safety theorem. -/
def tickProbe : OscState := { initState with currentTableSize := 50, phase := 1 / 4 }

/-! Helper lemmas. -/

theorem tableSizeFor_bounds (f : ℚ) : 20 ≤ tableSizeFor f ∧ tableSizeFor f ≤ MAX_TABLE_SIZE := by
  unfold tableSizeFor MAX_TABLE_SIZE
  split_ifs <;> exact ⟨by decide, by decide⟩

theorem update_phase_eq (s : OscState) (f : ℚ) (n : ℤ) :
    (updateForFrequencyAndTable s f n).phase = s.phase := by
  unfold updateForFrequencyAndTable
  split_ifs <;> rfl

theorem update_amp_v_eq (s : OscState) (f : ℚ) (n : ℤ) :
    (updateForFrequencyAndTable s f n).amplitude_v = s.amplitude_v := by
  unfold updateForFrequencyAndTable
  split_ifs <;> rfl

theorem update_amp_scale_eq (s : OscState) (f : ℚ) (n : ℤ) :
    (updateForFrequencyAndTable s f n).amplitude_scale = s.amplitude_scale := by
  unfold updateForFrequencyAndTable
  split_ifs <;> rfl

theorem update_interval_eq (s : OscState) (f : ℚ) (n : ℤ) (hf : 0 < f) :
    (updateForFrequencyAndTable s f n).currentIntervalUs = intervalUsFor f (clampTableSizeArg n) := by
  unfold updateForFrequencyAndTable
  rw [if_neg (not_le.mpr hf)]

theorem clampTableSizeArg_of_policy (f : ℚ) :
    clampTableSizeArg (tableSizeFor f) = tableSizeFor f := by
  have hb := tableSizeFor_bounds f
  simp only [clampTableSizeArg]
  rw [if_neg (by linarith [hb.1] : ¬ tableSizeFor f ≤ 0), if_neg (not_lt.mpr hb.2)]

theorem intervalUsFor_of_pos (f : ℚ) (n : ℤ) (hf : 0 < f) (hn : 0 < n) :
    intervalUsFor f n =
      (if 1000000 / (f * (n : ℚ)) < 6 then 6
       else (Int.floor (1000000 / (f * (n : ℚ)) + 1 / 2)).toNat) := by
  have hden : (0 : ℚ) < f * (n : ℚ) := mul_pos hf (by exact_mod_cast hn)
  simp only [intervalUsFor]
  rw [if_neg (not_le.mpr hden)]
  by_cases h6 : 1000000 / (f * (n : ℚ)) < 6
  · rw [if_pos h6, if_pos h6]
    have h13 : Int.floor ((6 : ℚ) + 1 / 2) = 6 := by norm_num
    rw [h13]
    rfl
  · rw [if_neg h6, if_neg h6]

theorem applyAmplitude_at_VCC (s : OscState) :
    (applyAmplitude s VCC).amplitude_v = VCC ∧ (applyAmplitude s VCC).amplitude_scale = 1 := by
  unfold applyAmplitude
  have h1 : ¬ (VCC < 0) := by norm_num [VCC]
  have h2 : ¬ (VCC > VCC) := lt_irrefl _
  have h3 : VCC / VCC = 1 := div_self (by norm_num [VCC])
  have h4 : ¬ ((1 : ℚ) > 1) := lt_irrefl _
  have h5 : ¬ ((1 : ℚ) < 0) := by norm_num
  simp only [if_neg h1, if_neg h2, h3, if_neg h4, if_neg h5]
  exact ⟨trivial, trivial⟩

/-! Claim theorems. -/

/-- Claim C1: after startup, the line "500 3.3" (supply 3.3 V, canonical
bands) is applied with table size 50, unclamped amplitude 3.3 V
(`amplitude_v` equals the recovered amplitude, scale 1) and sample interval
40 µs, and the response is the line `ACK` followed by the detail line
reporting freq 500.000, amp 3.300, table size 50 and interval 40 µs. -/
theorem scenario1_ack :
    recoverPair (("500 3.3").data) = (500, 33 / 10) ∧
    (processSerialLine setupState ("500 3.3")).1.currentTableSize = 50 ∧
    (processSerialLine setupState ("500 3.3")).1.amplitude_v = 33 / 10 ∧
    (processSerialLine setupState ("500 3.3")).1.amplitude_scale = 1 ∧
    (processSerialLine setupState ("500 3.3")).1.currentIntervalUs = 40 ∧
    (processSerialLine setupState ("500 3.3")).2 =
      ["ACK", "APPLIED freq=500.000 Hz amp=3.300 V tableSize=50 interval_us=40"] := by
  refine ⟨?_, ?_, ?_, ?_, ?_, ?_⟩ <;> with_unfolding_all rfl

/-- Claim C4: for every input line whose recovered frequency is ≤ 0 the
handler answers `NACK` / `PARSE_ERROR` and the returned state is exactly
the prior state (table, size, phase, amplitude, scale, frequency and
interval all unchanged). -/
theorem nonpos_freq_rejected (s : OscState) (line : String)
    (h : (recoverPair line.data).1 ≤ 0) :
    processSerialLine s line = (s, ["NACK", parseErrorMsg]) := by
  have hcond : ¬ (0 < (recoverPair line.data).1 ∧ 0 ≤ (recoverPair line.data).2) :=
    fun hc => absurd h (not_le.mpr hc.1)
  simp only [processSerialLine]
  exact if_neg hcond

/-- Witness for C4 at the line "0 1" (recovered frequency 0). -/
theorem nonpos_freq_rejected_witness :
    (recoverPair (("0 1").data)).1 ≤ 0 ∧
    processSerialLine initState ("0 1") = (initState, ["NACK", parseErrorMsg]) :=
  ⟨by with_unfolding_all decide,
   nonpos_freq_rejected initState ("0 1") (by with_unfolding_all decide)⟩

/-- Claim C6: the band ladder is monotonically non-increasing in frequency,
the band whose upper bound is ≥ the requested frequency applies, and every
frequency beyond 1200 Hz receives the coarsest size 20. -/
theorem tableSizeFor_policy :
    (∀ f1 f2 : ℚ, 0 < f1 → f1 ≤ f2 → tableSizeFor f2 ≤ tableSizeFor f1) ∧
    (∀ f : ℚ,
      (f ≤ 150 → tableSizeFor f = 200) ∧
      (150 < f → f ≤ 300 → tableSizeFor f = 100) ∧
      (300 < f → f ≤ 600 → tableSizeFor f = 50) ∧
      (600 < f → f ≤ 1200 → tableSizeFor f = 30) ∧
      (1200 < f → tableSizeFor f = 20)) := by
  constructor
  · intro f1 f2 h0 h12
    unfold tableSizeFor
    split_ifs <;> first | decide | linarith
  · intro f
    refine ⟨?_, ?_, ?_, ?_, ?_⟩ <;> intros <;> unfold tableSizeFor <;>
      split_ifs <;> first | rfl | linarith

/-- Witness for C6: monotone at 100 ≤ 500 and the coarsest band at 1300. -/
theorem tableSizeFor_policy_witness :
    tableSizeFor 500 ≤ tableSizeFor 100 ∧ tableSizeFor 1300 = 20 :=
  ⟨tableSizeFor_policy.1 100 500 (by decide) (by decide),
   (tableSizeFor_policy.2 1300).2.2.2.2 (by decide)⟩

/-- Claim C8: neither reconfiguration path writes `phase`: the amplitude
path, the frequency/table path (with any requested size), and the whole
command handler all leave `phase` exactly as it was. -/
theorem phase_never_written (s : OscState) (freq amp : ℚ) (n : ℤ) (line : String) :
    (applyAmplitude s amp).phase = s.phase ∧
    (updateForFrequencyAndTable s freq n).phase = s.phase ∧
    ((processSerialLine s line).1).phase = s.phase := by
  refine ⟨rfl, update_phase_eq s freq n, ?_⟩
  simp only [processSerialLine]
  split_ifs with h
  · show ((acceptBranch s _ _).1).phase = s.phase
    simp only [acceptBranch]
    rw [update_phase_eq]
    rfl
  · rfl

/-- Claim C10: a line that is empty before its newline — any number of
carriage returns followed by the newline — produces no response line at
all and leaves the oscillator state and the line buffer unchanged. -/
theorem empty_line_silent (s : OscState) (n : ℕ) :
    runChars s [] (List.replicate n '\r' ++ ['\n']) = (s, [], []) := by
  induction n with
  | zero => rfl
  | succ k ih => exact ih

/-- Counterexample to C5 as stated: the line "500 -1" has frequency 500 > 0
and amplitude −1 outside [0, VCC], yet the command is rejected with
`NACK` (not sanitized and applied), because the accept guard requires
`amp >= 0`. -/
theorem neg_amp_rejected_counterexample :
    (recoverPair (("500 -1").data)).1 = 500 ∧
    (recoverPair (("500 -1").data)).2 = -1 ∧
    processSerialLine initState ("500 -1") = (initState, ["NACK", parseErrorMsg]) :=
  ⟨by with_unfolding_all decide, by with_unfolding_all decide, by with_unfolding_all rfl⟩

/-- Counterexample to C7 as stated: for the accepted line "300 1" the exact
value 1e6/(300×100) = 100/3 µs is at least the 6 µs minimum, yet the
stored interval is the integer 33, not 100/3. -/
theorem interval_rounding_counterexample :
    (processSerialLine initState ("300 1")).1.currentTableSize = 100 ∧
    (processSerialLine initState ("300 1")).1.currentIntervalUs = 33 ∧
    6 ≤ (1000000 : ℚ) / (300 * 100) ∧
    ¬ (((processSerialLine initState ("300 1")).1.currentIntervalUs : ℚ) = 1000000 / (300 * 100)) :=
  ⟨by with_unfolding_all rfl, by with_unfolding_all rfl, by norm_num,
   by with_unfolding_all decide⟩

/-- Counterexample to C9 as stated: the line "500 2 x" is not two numeric
tokens (it has three tokens) and contains neither keyword, so the claimed
accept condition fails; yet the handler accepts it (ACK, and the table
size is rewritten to 50). -/
theorem parser_extra_tokens_counterexample :
    specAccepts (("500 2 x").data) = false ∧
    ((processSerialLine initState ("500 2 x")).2).headD "" = "ACK" ∧
    (processSerialLine initState ("500 2 x")).1.currentTableSize = 50 :=
  ⟨by with_unfolding_all decide, by with_unfolding_all rfl, by with_unfolding_all rfl⟩

/-- Claim C5 (amended): a command whose amplitude exceeds the supply
voltage is not rejected — the amplitude is silently clamped to `VCC`, the
command is applied with the clamped value (`amplitude_scale` = clamped
amplitude / supply = 1) and the ACK detail line reports the clamped value.
(A negative amplitude, by contrast, fails the accept guard: see the
counterexample.) -/
theorem high_amp_clamped (s : OscState) (line : String)
    (hf : 0 < (recoverPair line.data).1) (ha : VCC < (recoverPair line.data).2) :
    (processSerialLine s line).1.amplitude_v = VCC ∧
    (processSerialLine s line).1.amplitude_scale = 1 ∧
    (processSerialLine s line).2 =
      ["ACK", "APPLIED freq=" ++ fmt3 ((recoverPair line.data).1) ++ " Hz amp=" ++ fmt3 VCC ++
       " V tableSize=" ++ toString ((processSerialLine s line).1.currentTableSize) ++
       " interval_us=" ++ toString ((processSerialLine s line).1.currentIntervalUs)] := by
  have ha0 : 0 ≤ (recoverPair line.data).2 := le_trans (by norm_num [VCC]) (le_of_lt ha)
  have hcond : 0 < (recoverPair line.data).1 ∧ 0 ≤ (recoverPair line.data).2 := ⟨hf, ha0⟩
  have hamp : (if (recoverPair line.data).2 > VCC then VCC else (recoverPair line.data).2) = VCC :=
    if_pos ha
  simp only [processSerialLine, if_pos hcond, acceptBranch, hamp]
  refine ⟨?_, ?_, trivial⟩
  · rw [update_amp_v_eq]
    exact (applyAmplitude_at_VCC s).1
  · rw [update_amp_scale_eq]
    exact (applyAmplitude_at_VCC s).2

/-- Witness for C5 (amended) at the line "500 5" (amplitude 5 V > 3.3 V). -/
theorem high_amp_clamped_witness :
    0 < (recoverPair (("500 5").data)).1 ∧ VCC < (recoverPair (("500 5").data)).2 ∧
    (processSerialLine initState ("500 5")).1.amplitude_v = VCC ∧
    (processSerialLine initState ("500 5")).1.amplitude_scale = 1 :=
  ⟨by with_unfolding_all decide, by with_unfolding_all decide,
   (high_amp_clamped initState ("500 5") (by with_unfolding_all decide)
      (by with_unfolding_all decide)).1,
   (high_amp_clamped initState ("500 5") (by with_unfolding_all decide)
      (by with_unfolding_all decide)).2.1⟩

/-- Claim C7 (amended): for every accepted command the stored sample
interval is 1e6/(f×N) µs rounded to the nearest whole microsecond when
that value is at least the 6 µs minimum, and the minimum 6 µs otherwise;
in particular "2000 5" yields table size 20, amplitude clamped to 3.3 V
and stored interval 25 µs. -/
theorem interval_formula :
    (∀ (s : OscState) (line : String),
      0 < (recoverPair line.data).1 → 0 ≤ (recoverPair line.data).2 →
      (processSerialLine s line).1.currentIntervalUs =
        (if 1000000 / ((recoverPair line.data).1 * ((tableSizeFor (recoverPair line.data).1 : ℤ) : ℚ)) < 6
         then 6
         else (Int.floor (1000000 / ((recoverPair line.data).1 *
                ((tableSizeFor (recoverPair line.data).1 : ℤ) : ℚ)) + 1 / 2)).toNat)) ∧
    (processSerialLine initState ("2000 5")).1.currentTableSize = 20 ∧
    (processSerialLine initState ("2000 5")).1.amplitude_v = VCC ∧
    (processSerialLine initState ("2000 5")).1.currentIntervalUs = 25 := by
  refine ⟨?_, by with_unfolding_all rfl, by with_unfolding_all rfl, by with_unfolding_all rfl⟩
  intro s line hf ha
  have hb := tableSizeFor_bounds (recoverPair line.data).1
  have hn1 : (if tableSizeFor (recoverPair line.data).1 > MAX_TABLE_SIZE then MAX_TABLE_SIZE
              else tableSizeFor (recoverPair line.data).1) = tableSizeFor (recoverPair line.data).1 :=
    if_neg (not_lt.mpr hb.2)
  simp only [processSerialLine, if_pos (And.intro hf ha), acceptBranch, hn1]
  rw [update_interval_eq _ _ _ hf, clampTableSizeArg_of_policy,
      intervalUsFor_of_pos _ _ hf (by linarith [hb.1])]

/-- Witness for C7 (amended) at the accepted line "500 3.3". -/
theorem interval_formula_witness :
    0 < (recoverPair (("500 3.3").data)).1 ∧ 0 ≤ (recoverPair (("500 3.3").data)).2 ∧
    (processSerialLine initState ("500 3.3")).1.currentIntervalUs =
      (if 1000000 / ((recoverPair (("500 3.3").data)).1 *
            ((tableSizeFor (recoverPair (("500 3.3").data)).1 : ℤ) : ℚ)) < 6
       then 6
       else (Int.floor (1000000 / ((recoverPair (("500 3.3").data)).1 *
              ((tableSizeFor (recoverPair (("500 3.3").data)).1 : ℤ) : ℚ)) + 1 / 2)).toNat) :=
  ⟨by with_unfolding_all decide, by with_unfolding_all decide,
   interval_formula.1 initState ("500 3.3") (by with_unfolding_all decide)
     (by with_unfolding_all decide)⟩

/-- Claim C9 (amended): the handler accepts (first response line `ACK`) a
line exactly when the recovered pair — leading two-float scan, then the
keyword fallback overriding whichever values it finds when fewer than two
floats were scanned — has frequency > 0 and amplitude ≥ 0; on every other
line it answers `NACK` / `PARSE_ERROR` and mutates no oscillator state.
(Text after two leading numeric tokens is ignored, so the spec's
"exactly two tokens" reading is too strict: see the counterexample.) -/
theorem parser_accept_iff (s : OscState) (line : String) :
    (((processSerialLine s line).2).headD "" = "ACK" ↔
      0 < (recoverPair line.data).1 ∧ 0 ≤ (recoverPair line.data).2) ∧
    (((processSerialLine s line).2).headD "" ≠ "ACK" →
      processSerialLine s line = (s, ["NACK", parseErrorMsg])) := by
  by_cases h : 0 < (recoverPair line.data).1 ∧ 0 ≤ (recoverPair line.data).2
  · have hhead : ((processSerialLine s line).2).headD "" = "ACK" := by
      simp only [processSerialLine, if_pos h, acceptBranch]
      rfl
    exact ⟨⟨fun _ => h, fun _ => hhead⟩, fun hn => absurd hhead hn⟩
  · have heq : processSerialLine s line = (s, ["NACK", parseErrorMsg]) := by
      simp only [processSerialLine]
      exact if_neg h
    have hhead : ((processSerialLine s line).2).headD "" = "NACK" := by
      rw [heq]
      rfl
    refine ⟨?_, fun _ => heq⟩
    rw [hhead]
    exact ⟨fun hc => absurd hc (by decide), fun hc => absurd hc h⟩

/-- Witness for C9 (amended) at the line "hello world" (scenario 3): no
pair is recovered, so the handler rejects and changes nothing. -/
theorem parser_accept_iff_witness :
    processSerialLine initState ("hello world") = (initState, ["NACK", parseErrorMsg]) :=
  (parser_accept_iff initState ("hello world")).2 (by with_unfolding_all decide)

/-- Claim C2: the per-tick sampler is output-safe for any table contents
and any amplitude scale: with a degenerate table size (≤ 0) the tick is a
no-op (no PWM write, no state change); otherwise, for any phase in [0,1),
both table indices it reads lie in [0, table size) and the duty written to
the PWM peripheral lies in [0, 1]. -/
theorem tick_output_safe (s : OscState) :
    (s.currentTableSize ≤ 0 → onSampleTick s = none) ∧
    (0 < s.currentTableSize → 0 ≤ s.phase → s.phase < 1 →
      onSampleTick s = some (tickDuty s, { s with phase := tickNextPhase s }) ∧
      0 ≤ tickIdx0 s ∧ tickIdx0 s < s.currentTableSize ∧
      0 ≤ tickIdx1 s ∧ tickIdx1 s < s.currentTableSize ∧
      0 ≤ tickDuty s ∧ tickDuty s ≤ 1) := by
  constructor
  · intro h
    simp only [onSampleTick, if_pos h]
  · intro hN hp0 hp1
    have hNQ : (0 : ℚ) < (s.currentTableSize : ℚ) := by exact_mod_cast hN
    have hpos0 : 0 ≤ tickPos s := mul_nonneg hp0 (le_of_lt hNQ)
    have hposN : tickPos s < (s.currentTableSize : ℚ) := by
      have hm := mul_lt_mul_of_pos_right hp1 hNQ
      simpa [tickPos] using hm
    have hfl0 : 0 ≤ Int.floor (tickPos s) := Int.floor_nonneg.mpr hpos0
    have hflN : Int.floor (tickPos s) < s.currentTableSize := by
      rw [Int.floor_lt]
      exact_mod_cast hposN
    have hidx0 : tickIdx0 s = Int.floor (tickPos s) := by
      simp only [tickIdx0]
      rw [if_neg (not_le.mpr hflN)]
    have hidx1b : 0 ≤ tickIdx1 s ∧ tickIdx1 s < s.currentTableSize := by
      simp only [tickIdx1, hidx0]
      by_cases hi : s.currentTableSize ≤ Int.floor (tickPos s) + 1
      · rw [if_pos hi]
        omega
      · rw [if_neg hi]
        omega
    have hduty : 0 ≤ tickDuty s ∧ tickDuty s ≤ 1 := by
      simp only [tickDuty]
      by_cases h1 : ((s.amplitude_scale : ℚ) : ℝ) * tickSample s < 0
      · rw [if_pos h1]
        norm_num
      · rw [if_neg h1]
        push_neg at h1
        by_cases h2 : ((s.amplitude_scale : ℚ) : ℝ) * tickSample s > 1
        · rw [if_pos h2]
          norm_num
        · rw [if_neg h2]
          push_neg at h2
          exact ⟨h1, h2⟩
    refine ⟨?_, ?_, ?_, hidx1b.1, hidx1b.2, hduty.1, hduty.2⟩
    · simp only [onSampleTick, if_neg (not_le.mpr hN)]
    · rw [hidx0]
      exact hfl0
    · rw [hidx0]
      exact hflN

/-- Witness for C2 at a concrete state with table size 50 and phase 1/4. -/
theorem tick_output_safe_witness :
    0 < tickProbe.currentTableSize ∧ 0 ≤ tickProbe.phase ∧ tickProbe.phase < 1 ∧
    (0 ≤ tickIdx0 tickProbe ∧ tickIdx0 tickProbe < tickProbe.currentTableSize ∧
     0 ≤ tickDuty tickProbe ∧ tickDuty tickProbe ≤ 1) :=
  ⟨by decide, by with_unfolding_all decide, by with_unfolding_all decide,
   ((tick_output_safe tickProbe).2 (by decide) (by with_unfolding_all decide)
      (by with_unfolding_all decide)).2.1,
   ((tick_output_safe tickProbe).2 (by decide) (by with_unfolding_all decide)
      (by with_unfolding_all decide)).2.2.1,
   ((tick_output_safe tickProbe).2 (by decide) (by with_unfolding_all decide)
      (by with_unfolding_all decide)).2.2.2.2.2.1,
   ((tick_output_safe tickProbe).2 (by decide) (by with_unfolding_all decide)
      (by with_unfolding_all decide)).2.2.2.2.2.2⟩

/-- Claim C3: the table builder fills entries `0 ≤ i < size` with
`(sin(2πi/size)+1)/2`, so every filled entry lies in [0,1] and entry 0
equals 0.5; for `size ≤ 0` it is a no-op (no entry changes); for
`size > MAX_TABLE_SIZE` the size is clamped to `MAX_TABLE_SIZE` before
filling. -/
theorem buildSineTable_contract (table : ℕ → ℝ) (size : ℤ) :
    (size ≤ 0 → buildSineTable table size = table) ∧
    (0 < size → size ≤ MAX_TABLE_SIZE →
      (∀ i : ℕ, (i : ℤ) < size →
        buildSineTable table size i =
          (Real.sin (2 * Real.pi * (i : ℝ) / ((size : ℤ) : ℝ)) + 1) * 0.5 ∧
        0 ≤ buildSineTable table size i ∧ buildSineTable table size i ≤ 1) ∧
      buildSineTable table size 0 = 1 / 2) ∧
    (MAX_TABLE_SIZE < size → buildSineTable table size = buildSineTable table MAX_TABLE_SIZE) := by
  refine ⟨?_, ?_, ?_⟩
  · intro h
    simp only [buildSineTable, if_pos h]
  · intro h1 h2
    have hset : buildSineTable table size = fun (i : ℕ) =>
        if (i : ℤ) < size then (Real.sin (2 * Real.pi * (i : ℝ) / ((size : ℤ) : ℝ)) + 1) * 0.5
        else table i := by
      simp only [buildSineTable]
      rw [if_neg (not_le.mpr h1), if_neg (not_lt.mpr h2)]
    constructor
    · intro i hi
      rw [hset]
      dsimp only
      rw [if_pos hi]
      refine ⟨rfl, ?_, ?_⟩
      · have hs := Real.neg_one_le_sin (2 * Real.pi * (i : ℝ) / ((size : ℤ) : ℝ))
        linarith
      · have hs := Real.sin_le_one (2 * Real.pi * (i : ℝ) / ((size : ℤ) : ℝ))
        linarith
    · rw [hset]
      dsimp only
      rw [if_pos (by exact_mod_cast h1 : (((0 : ℕ) : ℤ)) < size)]
      norm_num
  · intro h
    simp only [buildSineTable]
    rw [if_neg (not_le.mpr (lt_trans (by decide : (0 : ℤ) < MAX_TABLE_SIZE) h)),
        if_neg (by decide : ¬ MAX_TABLE_SIZE ≤ 0), if_pos h,
        if_neg (lt_irrefl MAX_TABLE_SIZE)]

/-- Witness for C3 at size 50: entry 0 is 0.5 and entry 7 is in range. -/
theorem buildSineTable_contract_witness :
    buildSineTable (fun _ => (0 : ℝ)) 50 0 = 1 / 2 ∧
    0 ≤ buildSineTable (fun _ => (0 : ℝ)) 50 7 ∧
    buildSineTable (fun _ => (0 : ℝ)) 50 7 ≤ 1 :=
  ⟨((buildSineTable_contract (fun _ => (0 : ℝ)) 50).2.1 (by decide) (by decide)).2,
   (((buildSineTable_contract (fun _ => (0 : ℝ)) 50).2.1 (by decide) (by decide)).1
      7 (by decide)).2.1,
   (((buildSineTable_contract (fun _ => (0 : ℝ)) 50).2.1 (by decide) (by decide)).1
      7 (by decide)).2.2⟩

end SinePwm
